import Mathlib

/-!
Verification of the two command-line tools in this repository:

* Tool A, `git-commit-message-generator.py`: heuristic conventional-commit
  message generation from a parsed diff summary.
* Tool B, `tmux_config_validator.py`: a multi-check linter for tmux
  configuration files.

Python strings are embedded as Lean `String`; where the source manipulates
strings character by character (strip, split, startswith, substring search)
we embed those operations as executable functions over `String.data`
(`List Char`), which is the character sequence of the string.  Python lists
are `List`, Python dicts used as ordered key/value stores are association
lists, Python `None`/values are `Option`.  All functions are total and
executable; external effects (file reads, subprocess invocations, the
filesystem) are passed in as explicit values or function parameters.
-/

/-! ## Generic string helpers (embedding Python `str` primitives) -/

/-- Python `str.strip()`: drop whitespace from both ends (on characters). -/
def trimChars (cs : List Char) : List Char :=
  ((cs.dropWhile Char.isWhitespace).reverse.dropWhile Char.isWhitespace).reverse

/-- Python `line.strip()` on a `String`. -/
def strTrim (s : String) : String :=
  String.mk (trimChars s.data)

/-- Python `line.rstrip()`: drop trailing whitespace. -/
def rstrip (s : String) : String :=
  String.mk ((s.data.reverse.dropWhile Char.isWhitespace).reverse)

/-- Python `s.startswith(p)`. -/
def strStartsWith (s p : String) : Bool :=
  p.data.isPrefixOf s.data

/-- Substring occurrence test on character lists (Python `sub in s`):
some suffix of `l` has `m` as a leading segment. -/
def containsSub (l m : List Char) : Bool :=
  l.tails.any (fun t => m.isPrefixOf t)

/-- Python `sub in s` on `String`s. -/
def strContains (s sub : String) : Bool :=
  containsSub s.data sub.data

/-- Split a character list into maximal runs of non-whitespace characters
(the `\S+` tokens of a string, i.e. Python `re` tokens separated by `\s+`).
`acc` accumulates the current token in reverse. -/
def splitWsAux : List Char → List Char → List (List Char)
  | [], acc => if acc.isEmpty then [] else [acc.reverse]
  | c :: rest, acc =>
    if c.isWhitespace then
      if acc.isEmpty then splitWsAux rest [] else acc.reverse :: splitWsAux rest []
    else splitWsAux rest (c :: acc)

/-- The whitespace-separated tokens of a string. -/
def wordTokens (s : String) : List String :=
  (splitWsAux s.data []).map String.mk

/-- Drop an expected leading segment: `dropPre p cs = some rest` iff
`cs = p ++ rest`. Embeds anchored literal matching of regexes. -/
def dropPre : List Char → List Char → Option (List Char)
  | [], cs => some cs
  | _ :: _, [] => none
  | p :: ps, c :: cs => if p = c then dropPre ps cs else none

/-- Python `int(...)` on a digit string: fold decimal digits to a `Nat`. -/
def digitsToNat (ds : List Char) : Nat :=
  ds.foldl (fun n c => n * 10 + (c.toNat - '0'.toNat)) 0

/-! ## Tool A data model

`analyze_diff` produces a dict with keys `files_changed`, `additions`,
`deletions`, `file_types`, `change_patterns`; the classifier and composer
consume it.  We embed that dict as a structure (sets as lists). -/

structure DiffAnalysis where
  files_changed : List String
  additions : Nat
  deletions : Nat
  file_types : List String
  change_patterns : List String
deriving DecidableEq, Repr

/-! ## Tool A: `determine_commit_type` -/

/-- Embeds `determine_commit_type(analysis)`: the fixed if/elif precedence
over `change_patterns`, with the size-heuristic fallback. -/
def determine_commit_type (analysis : DiffAnalysis) : String :=
  let patterns := analysis.change_patterns
  if "bugfix" ∈ patterns then "fix"
  else if "feature" ∈ patterns then "feat"
  else if "docs" ∈ patterns then "docs"
  else if "style" ∈ patterns then "style"
  else if "refactor" ∈ patterns then "refactor"
  else if "perf" ∈ patterns then "perf"
  else if "test" ∈ patterns then "test"
  else if "config" ∈ patterns then "chore"
  else if "deps" ∈ patterns then "chore"
  else if analysis.deletions > analysis.additions * 2 then "refactor"
  else if analysis.additions > 10 then "feat"
  else "chore"

/-! ## Tool A: `get_scope` -/

/-- `file_path.split('/')[0]` for paths that contain `'/'`
(the guard `if '/' in file_path` of the source loop). -/
def topDirOf (p : String) : Option String :=
  if p.data.contains '/' then some (String.mk (p.data.takeWhile (fun c => c ≠ '/'))) else none

/-- `file_path.split('.')[-1]` for paths that contain `'.'`
(the guard `if '.' in file_path` of the source loop): the segment after
the last dot. -/
def extOf (p : String) : Option String :=
  if p.data.contains '.' then
    some (String.mk ((p.data.reverse.takeWhile (fun c => c ≠ '.')).reverse))
  else none

/-- The set `directories` of the source, as a deduplicated list. -/
def dirSet (files : List String) : List String :=
  (files.filterMap topDirOf).dedup

/-- The set `extensions` of the source, as a deduplicated list. -/
def extSet (files : List String) : List String :=
  (files.filterMap extOf).dedup

/-- Python `s.lower()` (character-wise). -/
def strToLower (s : String) : String :=
  String.mk (s.data.map Char.toLower)

/-- The `scope_map` dict of `get_scope`. -/
def scope_map : List (String × String) :=
  [("source", "src"), ("sources", "src"), ("test", "test"), ("tests", "test"),
   ("documentation", "docs"), ("config", "config"), ("configuration", "config")]

/-- `scope_map.get(scope.lower(), scope)`. -/
def applyScopeMap (scope : String) : String :=
  match scope_map.lookup (strToLower scope) with
  | some v => v
  | none => scope

/-- The extension-category branch of `get_scope`: programming extensions,
documentation extensions, structured-data extensions. -/
def extCategory (ext : String) : Option String :=
  if ext ∈ ["py", "js", "ts", "go", "rs", "java"] then some "core"
  else if ext ∈ ["md", "txt", "rst"] then some "docs"
  else if ext ∈ ["yml", "yaml", "json", "toml"] then some "config"
  else none

/-- `file_path.split('/')[-1]`: the path's final component (base name). -/
def fileNameOf (p : String) : String :=
  String.mk ((p.data.reverse.takeWhile (fun c => c ≠ '/')).reverse)

/-- The final specific-file loop of `get_scope`: first file whose lowered
base name matches a well-known name decides the scope. -/
def specialFileScope : List String → Option String
  | [] => none
  | p :: rest =>
    let base := strToLower (fileNameOf p)
    if base ∈ ["readme.md", "readme.txt", "readme.rst"] then some "readme"
    else if base ∈ ["package.json", "requirements.txt", "pyproject.toml", "cargo.toml", "go.mod"] then
      some "deps"
    else if strStartsWith base "dockerfile" then some "docker"
    else if base ∈ [".gitignore", ".env", ".env.example"] then some "config"
    else specialFileScope rest

/-- Embeds `get_scope(files_changed)`. -/
def get_scope (files_changed : List String) : String :=
  match files_changed with
  | [] => ""
  | _ :: _ =>
    match dirSet files_changed with
    | [d] => applyScopeMap d
    | _ =>
      match extSet files_changed with
      | [e] =>
        match extCategory e with
        | some s => s
        | none => (specialFileScope files_changed).getD ""
      | _ => (specialFileScope files_changed).getD ""


/-! ## Tool A: `generate_description` -/

/-- Embeds `generate_description(analysis, commit_type)`. -/
def generate_description (analysis : DiffAnalysis) (commit_type : String) : String :=
  let additions := analysis.additions
  let deletions := analysis.deletions
  match analysis.files_changed with
  | [] => "Update files"
  | [f] =>
    let file_name := fileNameOf f
    if commit_type = "fix" then "Resolve issues in " ++ file_name
    else if commit_type = "feat" then
      if additions > deletions * 2 then "Add new functionality to " ++ file_name
      else "Enhance " ++ file_name
    else if commit_type = "docs" then "Update documentation in " ++ file_name
    else if commit_type = "style" then "Format " ++ file_name
    else if commit_type = "refactor" then "Restructure " ++ file_name
    else if commit_type = "test" then "Add tests for " ++ file_name
    else if commit_type = "perf" then "Optimize " ++ file_name ++ " performance"
    else "Update " ++ file_name
  | files =>
    if commit_type = "fix" then "Resolve multiple issues"
    else if commit_type = "feat" then
      match analysis.file_types with
      | [t] => "Add new " ++ t ++ " features"
      | _ => "Add new functionality"
    else if commit_type = "docs" then "Update documentation"
    else if commit_type = "style" then "Format code"
    else if commit_type = "refactor" then
      if deletions > additions then "Remove unnecessary code" else "Restructure codebase"
    else if commit_type = "test" then "Add test coverage"
    else if commit_type = "perf" then "Improve performance"
    else if commit_type = "chore" then
      if "deps" ∈ analysis.change_patterns then "Update dependencies"
      else if "config" ∈ analysis.change_patterns then "Update configuration"
      else "Update project files"
    else "Update " ++ toString files.length ++ " files"


/-! ## Tool B data model -/

inductive ValidationLevel where
  | ERROR
  | WARNING
  | INFO
deriving DecidableEq, Repr

/-- The `.value` string of a `ValidationLevel` enum member. -/
def ValidationLevel.value : ValidationLevel → String
  | .ERROR => "ERROR"
  | .WARNING => "WARNING"
  | .INFO => "INFO"

structure ValidationIssue where
  level : ValidationLevel
  line_number : Nat
  message : String
  line_content : String
  suggestion : Option String := none
deriving DecidableEq, Repr

/-- The mutable state of a `TmuxConfigValidator` instance that the checks
touch: the `self.issues` list and the `self.keybindings` dict (embedded as
an association list in insertion order).  (`self.options` is declared in
the source but never used by any check.) -/
structure VState where
  issues : List ValidationIssue
  keybindings : List (String × Nat)
deriving DecidableEq, Repr

/-- Python `enumerate(lines, 1)`. -/
def enumerate1 (lines : List String) : List (Nat × String) :=
  lines.enum.map (fun p => (p.1 + 1, p.2))


/-! ## Tool B: `_check_syntax` -/

/-- One left-to-right, non-overlapping pass of Python
`line.replace(a + b, '')` for a two-character pattern: scanning resumes
after each removed occurrence. -/
def removePair (a b : Char) : List Char → List Char
  | [] => []
  | [c] => [c]
  | c :: d :: rest =>
    if c = a ∧ d = b then removePair a b rest
    else c :: removePair a b (d :: rest)

/-- `_has_unclosed_quotes(line)`: after removing escaped `\"` then escaped
`\'` sequences, an odd count of either quote character. -/
def has_unclosed_quotes (line : String) : Bool :=
  let l := removePair '\\' '\'' (removePair '\\' '"' line.data)
  (l.count '\'') % 2 ≠ 0 ∨ (l.count '"') % 2 ≠ 0

/-- The `typos` dict of `_check_syntax`, in insertion order. -/
def typo_table : List (String × String) :=
  [("set-window-opton", "set-window-option"),
   ("set-opton", "set-option"),
   ("bind-keys", "bind-key"),
   ("unbind-keys", "unbind-key"),
   ("set-envionment", "set-environment")]

/-- Issues appended by `_check_syntax` for one line (line number `i`). -/
def syntaxLineIssues (i : Nat) (line : String) : List ValidationIssue :=
  let stripped := strTrim line
  if stripped = "" ∨ strStartsWith stripped "#" then []
  else
    (if has_unclosed_quotes stripped then
      [⟨.ERROR, i, "Unclosed quotes detected", rstrip line,
        some "Ensure all quotes are properly closed"⟩]
     else []) ++
    typo_table.filterMap (fun tc =>
      if strContains stripped tc.1 then
        some ⟨.ERROR, i, "Possible typo: \x27" ++ tc.1 ++ "\x27", rstrip line,
              some ("Did you mean \x27" ++ tc.2 ++ "\x27?")⟩
      else none)

/-- All issues appended by `_check_syntax(lines)`. -/
def check_syntax_issues (lines : List String) : List ValidationIssue :=
  (enumerate1 lines).flatMap (fun p => syntaxLineIssues p.1 p.2)

/-! ## Tool B: `_check_keybinding_conflicts`

The source matches each stripped line against the regex
`^\s*(bind-key|bind)\s+(-[rnx]+\s+)?(\S+)` and records `group(3)` as the
bound key.  On a stripped line this regex matches exactly when the first
whitespace-separated token is `bind-key` or `bind` and a second token
exists; the optional flag group consumes the second token exactly when
that token is `-` followed by one or more characters from `{r,n,x}` AND a
third token exists (otherwise the required `\s+`/`(\S+)` after it fails
and backtracking skips the optional group), in which case `group(3)` is
the third token; otherwise `group(3)` is the second token. -/

/-- Does a token match `-[rnx]+` in full? -/
def isFlagCluster (t : String) : Bool :=
  match t.data with
  | '-' :: cs => ¬ cs.isEmpty ∧ cs.all (fun c => c = 'r' ∨ c = 'n' ∨ c = 'x')
  | _ => false

/-- `group(3)` of the key-binding regex on a stripped line, when it
matches (see the derivation above). -/
def bindKeyOf (stripped : String) : Option String :=
  match wordTokens stripped with
  | w :: t2 :: rest =>
    if w = "bind-key" ∨ w = "bind" then
      match rest with
      | t3 :: _ => if isFlagCluster t2 then some t3 else some t2
      | [] => some t2
    else none
  | _ => none

/-- Python `key in self.keybindings` / `self.keybindings[key]` on the
association-list embedding of the dict. -/
def kbLookup (kb : List (String × Nat)) (key : String) : Option Nat :=
  (kb.find? (fun p => p.1 == key)).map (fun p => p.2)

/-- The loop body of `_check_keybinding_conflicts`, processing the
enumerated lines while threading the `self.keybindings` dict; returns the
final dict and the issues appended, in order. -/
def kbProcess : List (Nat × String) → List (String × Nat) →
    List (String × Nat) × List ValidationIssue
  | [], kb => (kb, [])
  | (i, line) :: rest, kb =>
    let stripped := strTrim line
    if stripped = "" ∨ strStartsWith stripped "#" then kbProcess rest kb
    else
      match bindKeyOf stripped with
      | none => kbProcess rest kb
      | some key =>
        match kbLookup kb key with
        | some prev =>
          let r := kbProcess rest kb
          (r.1, ⟨.WARNING, i, "Duplicate key binding \x27" ++ key ++ "\x27", rstrip line,
                 some ("Previously defined at line " ++ toString prev)⟩ :: r.2)
        | none => kbProcess rest (kb ++ [(key, i)])

/-- Embeds `_check_keybinding_conflicts(lines)` as a transformer of the
validator state (it reads and extends `self.keybindings` and appends to
`self.issues`). -/
def check_keybinding_conflicts (lines : List String) (st : VState) : VState :=
  let r := kbProcess (enumerate1 lines) st.keybindings
  ⟨st.issues ++ r.2, r.1⟩


/-! ## Tool B: `_check_deprecated_options` -/

/-- The `deprecated` dict, in insertion order (`none` = removed entirely). -/
def deprecated_table : List (String × Option String) :=
  [("mode-mouse", some "mouse"),
   ("mouse-resize-pane", some "mouse"),
   ("mouse-select-pane", some "mouse"),
   ("mouse-select-window", some "mouse"),
   ("mouse-utf8", none),
   ("default-command", none)]

/-- Issues appended by `_check_deprecated_options` for one line. -/
def deprecatedLineIssues (i : Nat) (line : String) : List ValidationIssue :=
  let stripped := strTrim line
  if stripped = "" ∨ strStartsWith stripped "#" then []
  else
    deprecated_table.filterMap (fun od =>
      if strContains stripped od.1 then
        some ⟨.WARNING, i, "Deprecated option \x27" ++ od.1 ++ "\x27", rstrip line,
              some (match od.2 with
                    | some new => "Use \x27" ++ new ++ "\x27 instead"
                    | none => "This option has been removed")⟩
      else none)

/-- All issues appended by `_check_deprecated_options(lines)`. -/
def check_deprecated_options (lines : List String) : List ValidationIssue :=
  (enumerate1 lines).flatMap (fun p => deprecatedLineIssues p.1 p.2)


/-! ## Tool B: `_check_color_values`

`color_pattern = re.compile(r'(fg|bg|style)=(\S+)')` and
`color_pattern.findall(stripped)`: scan left to right; at each position
try the three alternatives (their first characters `f`, `b`, `s` are
distinct, so at most one can start a match), require `=` and then a
greedy non-empty run of non-whitespace characters as the value; after a
match, scanning resumes past the matched text (matches never overlap). -/

structure ColorMatch where
  attr : String
  value : String
  rest : List Char
deriving Repr

/-- Complete an attribute match: after `attr=`, take the greedy `\S+`
value from `r`; fail if it would be empty. -/
def colorValueAt (attr : String) (r : List Char) : Option ColorMatch :=
  let v := r.takeWhile (fun c => ¬ c.isWhitespace)
  if v.isEmpty then none else some ⟨attr, String.mk v, r.drop v.length⟩

/-- Try to match `(fg|bg|style)=(\S+)` anchored at the head of `cs`. -/
def matchAttrAt (cs : List Char) : Option ColorMatch :=
  match dropPre "fg=".data cs with
  | some r => colorValueAt "fg" r
  | none =>
    match dropPre "bg=".data cs with
    | some r => colorValueAt "bg" r
    | none =>
      match dropPre "style=".data cs with
      | some r => colorValueAt "style" r
      | none => none

theorem dropPre_length {p cs r : List Char} (h : dropPre p cs = some r) :
    r.length + p.length = cs.length := by
  induction p generalizing cs with
  | nil => simp [dropPre] at h; simp [h]
  | cons a ps ih =>
    cases cs with
    | nil => simp [dropPre] at h
    | cons c cs' =>
      simp only [dropPre] at h
      split at h
      · have := ih h
        simp only [List.length_cons]
        omega
      · exact absurd h (by simp)

theorem matchAttrAt_rest_length {cs : List Char} {m : ColorMatch}
    (h : matchAttrAt cs = some m) : m.rest.length < cs.length := by
  have step : ∀ (a : String) (r : List Char), colorValueAt a r = some m →
      r.length ≤ cs.length - 3 → 3 ≤ cs.length → m.rest.length < cs.length := by
    intro a r hv hr hcs
    simp only [colorValueAt] at hv
    split at hv
    · exact absurd hv (by simp)
    · next hne =>
      have : m.rest = r.drop (r.takeWhile (fun c => ¬ c.isWhitespace)).length := by
        cases m; simp at hv; simp [hv]
      rw [this, List.length_drop]
      have h1 : 1 ≤ (r.takeWhile (fun c => ¬ c.isWhitespace)).length := by
        cases hq : r.takeWhile (fun c => ¬ c.isWhitespace) with
        | nil => rw [hq] at hne; simp at hne
        | cons x xs => simp [hq]
      omega
  unfold matchAttrAt at h
  split at h
  · next hp =>
    have := dropPre_length hp
    exact step "fg" _ h (by simp at this; omega) (by simp at this; omega)
  · split at h
    · next hp =>
      have := dropPre_length hp
      exact step "bg" _ h (by simp at this; omega) (by simp at this; omega)
    · split at h
      · next hp =>
        have := dropPre_length hp
        exact step "style" _ h (by simp at this; omega) (by simp at this; omega)
      · exact absurd h (by simp)

/-- The scan loop of `color_pattern.findall`, structurally recursive on a
fuel bound: every step consumes at least one character of `cs`
(`matchAttrAt_rest_length`), so `cs.length` steps always suffice and the
fuel never runs out (see `colorFindAll_eq`). -/
def colorFindAllAux : Nat → List Char → List (String × String)
  | 0, _ => []
  | fuel + 1, cs =>
    match matchAttrAt cs with
    | some m => (m.attr, m.value) :: colorFindAllAux fuel m.rest
    | none =>
      match cs with
      | [] => []
      | _ :: rest => colorFindAllAux fuel rest

/-- `color_pattern.findall(stripped)` (attribute/value pairs, in order). -/
def colorFindAll (cs : List Char) : List (String × String) :=
  colorFindAllAux cs.length cs

theorem colorFindAllAux_congr :
    ∀ (f1 f2 : Nat) (cs : List Char), cs.length ≤ f1 → cs.length ≤ f2 →
      colorFindAllAux f1 cs = colorFindAllAux f2 cs := by
  intro f1
  induction f1 with
  | zero =>
    intro f2 cs h1 _
    have : cs = [] := by cases cs <;> simp_all
    subst this
    cases f2 <;> rfl
  | succ f ih =>
    intro f2 cs h1 h2
    cases f2 with
    | zero =>
      have : cs = [] := by cases cs <;> simp_all
      subst this
      rfl
    | succ f2' =>
      simp only [colorFindAllAux]
      cases hm : matchAttrAt cs with
      | some m =>
        have hlt := matchAttrAt_rest_length hm
        exact congrArg (List.cons (m.attr, m.value)) (ih f2' m.rest (by omega) (by omega))
      | none =>
        cases cs with
        | nil => rfl
        | cons c rest =>
          simp only [List.length_cons] at h1 h2
          exact ih f2' rest (by omega) (by omega)

/-- `colorFindAll` satisfies the intended one-step scan equation: match at
the head, else advance one character. -/
theorem colorFindAll_eq (cs : List Char) :
    colorFindAll cs =
      match matchAttrAt cs with
      | some m => (m.attr, m.value) :: colorFindAll m.rest
      | none =>
        match cs with
        | [] => []
        | _ :: rest => colorFindAll rest := by
  cases cs with
  | nil => rfl
  | cons c rest =>
    show colorFindAllAux (rest.length + 1) (c :: rest) = _
    simp only [colorFindAllAux]
    cases hm : matchAttrAt (c :: rest) with
    | some m =>
      have hlt := matchAttrAt_rest_length hm
      simp only [List.length_cons] at hlt
      exact congrArg (List.cons (m.attr, m.value))
        (colorFindAllAux_congr rest.length m.rest.length m.rest (by omega) (by omega))
    | none => rfl

/-- The `valid_colors` set. -/
def valid_colors : List String :=
  ["black", "red", "green", "yellow", "blue", "magenta", "cyan", "white",
   "brightblack", "brightred", "brightgreen", "brightyellow",
   "brightblue", "brightmagenta", "brightcyan", "brightwhite",
   "default", "terminal"]

/-- `re.match(r'^#[0-9a-fA-F]{6}$', color)`: a `#` followed by exactly six
hexadecimal digits. -/
def isHex6 (color : String) : Bool :=
  match color.data with
  | '#' :: ds => ds.length = 6 ∧ ds.all (fun c =>
      ('0' ≤ c ∧ c ≤ '9') ∨ ('a' ≤ c ∧ c ≤ 'f') ∨ ('A' ≤ c ∧ c ≤ 'F'))
  | _ => false

/-- The acceptance test of `_check_color_values`: a valid color name, or a
`colour`/`color` prefix, or a hex code. -/
def isValidColorValue (color : String) : Bool :=
  color ∈ valid_colors ∨ strStartsWith color "colour" ∨
    strStartsWith color "color" ∨ isHex6 color

/-- The WARNING issue `_check_color_values` appends for an invalid color
occurrence on line `i`. -/
def colorWarnIssue (i : Nat) (line : String) (color : String) : ValidationIssue :=
  ⟨.WARNING, i, "Invalid color value \x27" ++ color ++ "\x27", rstrip line,
   some "Use valid color name, \x27colour0-255\x27, or hex code \x27#RRGGBB\x27"⟩

/-- Issues appended by `_check_color_values` for one line. -/
def colorLineIssues (i : Nat) (line : String) : List ValidationIssue :=
  let stripped := strTrim line
  if stripped = "" ∨ strStartsWith stripped "#" then []
  else
    (colorFindAll stripped.data).filterMap (fun ac =>
      if isValidColorValue ac.2 then none else some (colorWarnIssue i line ac.2))

/-- All issues appended by `_check_color_values(lines)`. -/
def check_color_values (lines : List String) : List ValidationIssue :=
  (enumerate1 lines).flatMap (fun p => colorLineIssues p.1 p.2)


/-! ## Tool B: `_check_paths`

`source_pattern = re.compile(r'^\s*source(?:-file)?\s+(.+?)(?:\s|$)')` on a
stripped line: the line must start with `source` (optionally continued by
`-file`) followed by whitespace; the non-greedy group then captures the
characters up to (excluding) the next whitespace character or the end of
the line — i.e. the next whitespace-delimited token.  Filesystem and
environment effects (`os.path.expandvars`/`expanduser`, `Path.is_absolute`,
joining onto the config file's directory, `Path.exists`) are passed in as
an explicit environment. -/

structure PathEnv where
  expand : String → String
  isAbsolute : String → Bool
  joinParent : String → String
  pathExists : String → Bool

/-- `group(1)` of the source-file regex on a stripped line, when it
matches. -/
def sourceArg (stripped : String) : Option String :=
  match dropPre "source".data stripped.data with
  | none => none
  | some r =>
    let r2 := match dropPre "-file".data r with
              | some r' => if (r'.head?.map Char.isWhitespace).getD false then r' else r
              | none => r
    match r2 with
    | [] => none
    | c :: _ =>
      if c.isWhitespace then
        match r2.dropWhile Char.isWhitespace with
        | [] => none
        | t => some (String.mk (t.takeWhile (fun ch => ¬ ch.isWhitespace)))
      else none

/-- Python `s.strip(chars)` for a fixed character: drop that character from
both ends. -/
def stripCharEnds (c : Char) (cs : List Char) : List Char :=
  ((cs.dropWhile (fun x => x = c)).reverse.dropWhile (fun x => x = c)).reverse

/-- `match.group(1).strip().strip('"').strip("'")`. -/
def stripQuotes (s : String) : String :=
  String.mk (stripCharEnds '\'' (stripCharEnds '"' (trimChars s.data)))

/-- Issues appended by `_check_paths` for one line. -/
def pathLineIssues (env : PathEnv) (i : Nat) (line : String) : List ValidationIssue :=
  let stripped := strTrim line
  if stripped = "" ∨ strStartsWith stripped "#" then []
  else
    match sourceArg stripped with
    | none => []
    | some tok =>
      let path_str := env.expand (stripQuotes tok)
      let path := if env.isAbsolute path_str then path_str else env.joinParent path_str
      if env.pathExists path then []
      else
        [⟨.ERROR, i, "Source file not found: " ++ path_str, rstrip line,
          some "Check that the file exists and path is correct"⟩]

/-- All issues appended by `_check_paths(lines)`. -/
def check_paths (env : PathEnv) (lines : List String) : List ValidationIssue :=
  (enumerate1 lines).flatMap (fun p => pathLineIssues env p.1 p.2)

/-- An environment in which every path exists (so `_check_paths` finds no
issues); used for concrete witnesses. -/
def allExistsEnv : PathEnv :=
  ⟨id, fun _ => true, id, fun _ => true⟩


/-! ## Tool B: `_validate_with_tmux`

The subprocess invocation
`tmux -f <config> start-server ; kill-server` (with `timeout=5`) is
embedded as an explicit outcome value: normal completion with a return
code and captured stderr text, `subprocess.TimeoutExpired`,
`FileNotFoundError` (no tmux binary), or any other exception. -/

inductive TmuxOutcome where
  | completed (returncode : Int) (stderr : String)
  | timeout
  | binaryMissing
  | otherFailure (msg : String)
deriving DecidableEq, Repr

/-- `result.stderr.strip().split('\n')`. -/
def splitNl : List Char → List (List Char)
  | [] => [[]]
  | c :: rest =>
    if c = '\n' then [] :: splitNl rest
    else
      match splitNl rest with
      | w :: ws => (c :: w) :: ws
      | [] => [[c]]

/-- The `error_lines` list of `_validate_with_tmux`. -/
def stderrLines (stderr : String) : List String :=
  (splitNl (trimChars stderr.data)).map String.mk

/-- `re.search(r'line (\d+):', error)` anchored at the head: the literal
`line `, then a maximal non-empty digit run, then `:`. -/
def lineNumAt (cs : List Char) : Option Nat :=
  match dropPre "line ".data cs with
  | none => none
  | some r =>
    match r.takeWhile Char.isDigit with
    | [] => none
    | ds =>
      match r.drop ds.length with
      | ':' :: _ => some (digitsToNat ds)
      | _ => none

/-- `re.search(r'line (\d+):', error)` over the whole string: first
position where the pattern matches. -/
def findLineNum : List Char → Option Nat
  | [] => none
  | c :: rest =>
    match lineNumAt (c :: rest) with
    | some n => some n
    | none => findLineNum rest

/-- `if error and not error.startswith('server exited')`: the guard of
the per-line loop over `error_lines`. -/
def tmuxLineKept (e : String) : Bool :=
  e ≠ "" ∧ ¬ strStartsWith e "server exited"

/-- The ERROR issue built for one kept tmux error line. -/
def tmuxErrorIssue (e : String) : ValidationIssue :=
  ⟨.ERROR, (findLineNum e.data).getD 0, "tmux validation error", "", some e⟩

/-- The per-line loop over `error_lines` on a non-zero exit: every
non-empty line not starting with `server exited` becomes an ERROR issue
whose line number is the parsed `line N:` token (0 when absent) and whose
suggestion carries the raw error line. -/
def tmux_error_issues : List String → List ValidationIssue
  | [] => []
  | e :: rest =>
    if tmuxLineKept e then tmuxErrorIssue e :: tmux_error_issues rest
    else tmux_error_issues rest

/-- Issues appended by `_validate_with_tmux` for each invocation outcome.
Every branch of the source's `try`/`except` appends to `self.issues` and
returns normally, so the embedding is a total function. -/
def tmux_issues : TmuxOutcome → List ValidationIssue
  | .completed rc stderr =>
    if rc ≠ 0 then tmux_error_issues (stderrLines stderr) else []
  | .timeout =>
    [⟨.WARNING, 0, "tmux validation timeout", "",
      some "Config validation took too long, might have blocking commands"⟩]
  | .binaryMissing =>
    [⟨.INFO, 0, "tmux not found in PATH", "",
      some "Install tmux to enable full validation"⟩]
  | .otherFailure msg =>
    [⟨.WARNING, 0, "Could not validate with tmux: " ++ msg, "",
      some "Syntax validation only, runtime validation skipped"⟩]


/-! ## Tool B: `validate`, `print_report`, `main` -/

/-- The ERROR issue `validate` appends when the config file cannot be
read (`except Exception as e` around `open`). -/
def readErrorIssue (e : String) : ValidationIssue :=
  ⟨.ERROR, 0, "Cannot read config file: " ++ e, "",
   some "Check file permissions and path"⟩

/-- Embeds `TmuxConfigValidator.validate()`: reset `self.issues`, read the
file (`readResult` is the outcome of `open`/`readlines`), and either
record the single read-failure ERROR and return, or run the six checks in
order.  `self.keybindings` is whatever the instance carried in. -/
def validate (readResult : Except String (List String)) (env : PathEnv)
    (tm : TmuxOutcome) (st : VState) : VState :=
  let st0 : VState := ⟨[], st.keybindings⟩
  match readResult with
  | .error e => ⟨[readErrorIssue e], st0.keybindings⟩
  | .ok lines =>
    let st1 : VState := ⟨st0.issues ++ check_syntax_issues lines, st0.keybindings⟩
    let st2 := check_keybinding_conflicts lines st1
    let st3 : VState := ⟨st2.issues ++ check_deprecated_options lines, st2.keybindings⟩
    let st4 : VState := ⟨st3.issues ++ check_color_values lines, st3.keybindings⟩
    let st5 : VState := ⟨st4.issues ++ check_paths env lines, st4.keybindings⟩
    ⟨st5.issues ++ tmux_issues tm, st5.keybindings⟩

/-- The static checks' issues for a fresh validator instance (empty
`self.keybindings`), in pipeline order. -/
def static_issues (env : PathEnv) (lines : List String) : List ValidationIssue :=
  check_syntax_issues lines ++ (kbProcess (enumerate1 lines) []).2 ++
    check_deprecated_options lines ++ check_color_values lines ++ check_paths env lines

/-- `_print_issue(issue)`: the lines printed for a single issue. -/
def print_issue_lines (issue : ValidationIssue) : List String :=
  (if issue.line_number > 0 then
    ["  [" ++ issue.level.value ++ "] Line " ++ toString issue.line_number ++ ": " ++ issue.message]
   else
    ["  [" ++ issue.level.value ++ "] " ++ issue.message]) ++
  (if issue.line_content ≠ "" then ["    > " ++ issue.line_content] else []) ++
  (match issue.suggestion with
   | some s => ["    " ++ s]
   | none => [])

/-- One severity group of the report (header plus its issues). -/
def reportGroup (header : String) (issues : List ValidationIssue) : List String :=
  if issues.isEmpty then []
  else header :: issues.flatMap print_issue_lines

/-- Embeds `print_report()`: the report text as a list of printed lines,
keyed by the config path shown in the headers. -/
def print_report (cfg : String) (issues : List ValidationIssue) : List String :=
  if issues.isEmpty then ["No issues found in " ++ cfg]
  else
    let errors := issues.filter (fun i => i.level == .ERROR)
    let warnings := issues.filter (fun i => i.level == .WARNING)
    let info := issues.filter (fun i => i.level == .INFO)
    ["Validation Report for " ++ cfg] ++
    reportGroup (toString errors.length ++ " Error(s) found:") errors ++
    reportGroup (toString warnings.length ++ " Warning(s) found:") warnings ++
    reportGroup (toString info.length ++ " Info message(s):") info ++
    ["Summary: " ++ toString errors.length ++ " errors, " ++ toString warnings.length ++
      " warnings, " ++ toString info.length ++ " info"]

/-- One element of the `--json` output array. -/
structure JsonEntry where
  level : String
  line : Nat
  message : String
  content : String
  suggestion : Option String
deriving DecidableEq, Repr

/-- The dict built for one issue in the `--json` branch of `main`. -/
def jsonEntryOf (i : ValidationIssue) : JsonEntry :=
  ⟨i.level.value, i.line_number, i.message, i.line_content, i.suggestion⟩

/-- What `main` prints: a JSON array, a formatted report, or the single
top-level `Error: ...` line of the `except` handler. -/
inductive MainOutput where
  | jsonOut (entries : List JsonEntry)
  | reportOut (lines : List String)
  | errorOut (msg : String)
deriving DecidableEq, Repr

/-- The parsed CLI arguments of Tool B. -/
structure Args where
  config : Option String
  json : Bool
  fix : Bool
deriving DecidableEq, Repr

/-- The outcome of `TmuxConfigValidator(args.config)`: either a config
path was located and `open` was attempted (`ok` carries the read
outcome), or no path was given and `_find_config_file` raised
`FileNotFoundError`. -/
inductive InitResult where
  | ok (readResult : Except String (List String))
  | raiseNotFound
deriving Repr

/-- Embeds `main()`: construct the validator, validate, print (JSON or
report), and exit 1 exactly when an ERROR-level issue exists; the
top-level `except` prints `Error: ...` and exits 1.  `args.fix` is parsed
but never consulted anywhere in the source. -/
def mainRun (args : Args) (init : InitResult) (env : PathEnv) (tm : TmuxOutcome)
    (cfg : String) : MainOutput × Nat :=
  match init with
  | .raiseNotFound => (.errorOut "Error: No tmux configuration file found", 1)
  | .ok readResult =>
    let issues := (validate readResult env tm ⟨[], []⟩).issues
    let out := if args.json then MainOutput.jsonOut (issues.map jsonEntryOf)
               else MainOutput.reportOut (print_report cfg issues)
    (out, if issues.any (fun i => i.level == .ERROR) then 1 else 0)


/-- The nine topical patterns, none of which is detected. -/
def patternFree (a : DiffAnalysis) : Prop :=
  "bugfix" ∉ a.change_patterns ∧ "feature" ∉ a.change_patterns ∧
  "docs" ∉ a.change_patterns ∧ "style" ∉ a.change_patterns ∧
  "refactor" ∉ a.change_patterns ∧ "perf" ∉ a.change_patterns ∧
  "test" ∉ a.change_patterns ∧ "config" ∉ a.change_patterns ∧
  "deps" ∉ a.change_patterns

/-- `_check_syntax` as a transformer of the validator state: it only
appends its findings to `self.issues`. -/
def check_syntax_st (lines : List String) (st : VState) : VState :=
  ⟨st.issues ++ check_syntax_issues lines, st.keybindings⟩

/-- `_check_deprecated_options` as a transformer of the validator state:
it only appends its findings to `self.issues`. -/
def check_deprecated_options_st (lines : List String) (st : VState) : VState :=
  ⟨st.issues ++ check_deprecated_options lines, st.keybindings⟩

/-- `_check_color_values` as a transformer of the validator state: it
only appends its findings to `self.issues`. -/
def check_color_values_st (lines : List String) (st : VState) : VState :=
  ⟨st.issues ++ check_color_values lines, st.keybindings⟩

/-- `_check_paths` as a transformer of the validator state: it only
appends its findings to `self.issues`. -/
def check_paths_st (env : PathEnv) (lines : List String) (st : VState) : VState :=
  ⟨st.issues ++ check_paths env lines, st.keybindings⟩

/-- Modelled from the claim's wording, for comparison with `get_scope`
(spec side): "every changed path shares a single top-level directory
component" — each path has a directory separator and the first components
all agree. -/
def spec_sharesTopDir (files : List String) : Bool :=
  ¬ files.isEmpty ∧ files.all (fun p => p.data.contains '/') ∧ (dirSet files).length = 1

/-- Modelled from the claim's wording, for comparison with `get_scope`
(spec side): "every path shares one file extension". -/
def spec_sharesOneExt (files : List String) : Bool :=
  ¬ files.isEmpty ∧ files.all (fun p => p.data.contains '.') ∧ (extSet files).length = 1

/-- Helper for the spec-side colour-index form: `word` followed by a
non-empty decimal index and nothing else. -/
def spec_wordIndex (word : String) (c : String) : Bool :=
  match dropPre word.data c.data with
  | some r => !r.isEmpty && r.all Char.isDigit
  | none => false

/-- Modelled from the claim's wording, for comparison with
`isValidColorValue` (spec side): a value "of the colour/color + index
form" — the word `colour` or `color` followed by a non-empty decimal
index. -/
def spec_colourIndexForm (c : String) : Bool :=
  spec_wordIndex "colour" c || spec_wordIndex "color" c

/-! # Theorems -/

/-! ## Shared string lemmas -/

theorem strData_append (a b : String) : (a ++ b).data = a.data ++ b.data := by
  cases a
  cases b
  rfl

theorem containsSub_eq_true_iff {l m : List Char} :
    containsSub l m = true ↔ m <:+: l := by
  constructor
  · intro h
    simp only [containsSub, List.any_eq_true] at h
    obtain ⟨t, ht, hp⟩ := h
    rw [List.mem_tails] at ht
    rw [List.isPrefixOf_iff_prefix] at hp
    exact List.infix_iff_prefix_suffix.mpr ⟨t, hp, ht⟩
  · intro h
    obtain ⟨t, hp, ht⟩ := List.infix_iff_prefix_suffix.mp h
    simp only [containsSub, List.any_eq_true]
    refine ⟨t, ?_, ?_⟩
    · rw [List.mem_tails]
      exact ht
    · rw [List.isPrefixOf_iff_prefix]
      exact hp

theorem containsSub_infix_mid (a b c : List Char) :
    containsSub (a ++ b ++ c) b = true :=
  containsSub_eq_true_iff.mpr (List.infix_append a b c)

theorem containsSub_eq_false_of_not_mem {l m : List Char} {c : Char}
    (hc : c ∈ m) (hl : c ∉ l) : containsSub l m = false := by
  cases h : containsSub l m with
  | false => rfl
  | true => exact absurd ((containsSub_eq_true_iff.mp h).subset hc) hl

theorem slash_not_mem_fileNameOf (p : String) : '/' ∉ (fileNameOf p).data := by
  intro h
  simp only [fileNameOf, List.mem_reverse] at h
  have := List.mem_takeWhile_imp h
  simp at this

/-! ## Claim C1 -/

/-- Claim C1: `determine_commit_type` follows the fixed precedence
bugfix > feature > docs > style > refactor > perf > test > config > deps
over the detected `change_patterns` (the first matching pattern decides
the type, with config and deps both yielding `chore`); when no pattern
matched, it returns `refactor` if deletions are more than double the
additions, else `feat` if additions exceed 10, else `chore`; in
particular `bugfix` forces `fix` regardless of any other patterns. -/
theorem C1_commit_type_precedence (a : DiffAnalysis) :
    ("bugfix" ∈ a.change_patterns → determine_commit_type a = "fix") ∧
    ("bugfix" ∉ a.change_patterns → "feature" ∈ a.change_patterns →
      determine_commit_type a = "feat") ∧
    ("bugfix" ∉ a.change_patterns → "feature" ∉ a.change_patterns →
      "docs" ∈ a.change_patterns → determine_commit_type a = "docs") ∧
    ("bugfix" ∉ a.change_patterns → "feature" ∉ a.change_patterns →
      "docs" ∉ a.change_patterns → "style" ∈ a.change_patterns →
      determine_commit_type a = "style") ∧
    ("bugfix" ∉ a.change_patterns → "feature" ∉ a.change_patterns →
      "docs" ∉ a.change_patterns → "style" ∉ a.change_patterns →
      "refactor" ∈ a.change_patterns → determine_commit_type a = "refactor") ∧
    ("bugfix" ∉ a.change_patterns → "feature" ∉ a.change_patterns →
      "docs" ∉ a.change_patterns → "style" ∉ a.change_patterns →
      "refactor" ∉ a.change_patterns → "perf" ∈ a.change_patterns →
      determine_commit_type a = "perf") ∧
    ("bugfix" ∉ a.change_patterns → "feature" ∉ a.change_patterns →
      "docs" ∉ a.change_patterns → "style" ∉ a.change_patterns →
      "refactor" ∉ a.change_patterns → "perf" ∉ a.change_patterns →
      "test" ∈ a.change_patterns → determine_commit_type a = "test") ∧
    ("bugfix" ∉ a.change_patterns → "feature" ∉ a.change_patterns →
      "docs" ∉ a.change_patterns → "style" ∉ a.change_patterns →
      "refactor" ∉ a.change_patterns → "perf" ∉ a.change_patterns →
      "test" ∉ a.change_patterns →
      ("config" ∈ a.change_patterns ∨ "deps" ∈ a.change_patterns) →
      determine_commit_type a = "chore") ∧
    (patternFree a → a.deletions > a.additions * 2 →
      determine_commit_type a = "refactor") ∧
    (patternFree a → ¬ a.deletions > a.additions * 2 → a.additions > 10 →
      determine_commit_type a = "feat") ∧
    (patternFree a → ¬ a.deletions > a.additions * 2 → ¬ a.additions > 10 →
      determine_commit_type a = "chore") := by
  refine ⟨?_, ?_, ?_, ?_, ?_, ?_, ?_, ?_, ?_, ?_, ?_⟩
  · intro h1
    simp [determine_commit_type, h1]
  · intro h1 h2
    simp [determine_commit_type, h1, h2]
  · intro h1 h2 h3
    simp [determine_commit_type, h1, h2, h3]
  · intro h1 h2 h3 h4
    simp [determine_commit_type, h1, h2, h3, h4]
  · intro h1 h2 h3 h4 h5
    simp [determine_commit_type, h1, h2, h3, h4, h5]
  · intro h1 h2 h3 h4 h5 h6
    simp [determine_commit_type, h1, h2, h3, h4, h5, h6]
  · intro h1 h2 h3 h4 h5 h6 h7
    simp [determine_commit_type, h1, h2, h3, h4, h5, h6, h7]
  · intro h1 h2 h3 h4 h5 h6 h7 h8
    rcases h8 with h8 | h8
    · simp [determine_commit_type, h1, h2, h3, h4, h5, h6, h7, h8]
    · by_cases hc : "config" ∈ a.change_patterns <;>
        simp [determine_commit_type, h1, h2, h3, h4, h5, h6, h7, h8, hc]
  · intro hf h1
    obtain ⟨p1, p2, p3, p4, p5, p6, p7, p8, p9⟩ := hf
    simp [determine_commit_type, p1, p2, p3, p4, p5, p6, p7, p8, p9, h1]
  · intro hf h1 h2
    obtain ⟨p1, p2, p3, p4, p5, p6, p7, p8, p9⟩ := hf
    simp [determine_commit_type, p1, p2, p3, p4, p5, p6, p7, p8, p9, h1, h2]
  · intro hf h1 h2
    obtain ⟨p1, p2, p3, p4, p5, p6, p7, p8, p9⟩ := hf
    simp [determine_commit_type, p1, p2, p3, p4, p5, p6, p7, p8, p9, h1, h2]

/-- Witness for C1 at a concrete analysis: `bugfix` among the detected
patterns forces commit type `fix` even though `feature` also matched. -/
theorem C1_commit_type_precedence_witness :
    determine_commit_type ⟨["src/a.py"], 3, 2, [], ["feature", "bugfix"]⟩ = "fix" :=
  (C1_commit_type_precedence ⟨["src/a.py"], 3, 2, [], ["feature", "bugfix"]⟩).1 (by decide)

/-! ## Claim C3 -/

/-- Counterexample to claim C3.  The claim says the top-level-directory
scope is returned exactly when every changed path shares a single
top-level directory component, and only otherwise the shared-extension
mapping applies.  But the source collects first components only of paths
that contain `/`: for `["src/a.py", "b.py"]` not every path has a
top-level directory, and both paths share the extension `py` (claim:
scope `core`), yet `get_scope` returns `src`.  Moreover the returned
directory name is not lower-cased when the synonym lookup misses: for
`["Lib/a.py"]` (claim: `lib`) the source returns `Lib` unchanged. -/
theorem C3_scope_counterexample :
    spec_sharesTopDir ["src/a.py", "b.py"] = false ∧
    spec_sharesOneExt ["src/a.py", "b.py"] = true ∧
    extCategory "py" = some "core" ∧
    get_scope ["src/a.py", "b.py"] = "src" ∧
    spec_sharesTopDir ["Lib/a.py"] = true ∧
    get_scope ["Lib/a.py"] = "Lib" ∧
    "Lib" ≠ strToLower "Lib" := by decide

/-- Claim C3, corrected to the source's actual branch conditions: for a
non-empty path list, `get_scope` returns the synonym-mapped shared first
component as soon as the paths *that contain a directory separator* have
exactly one distinct first component (`scope_map.get(d.lower(), d)`,
returning the component unchanged — not lower-cased — when the lookup
misses); only otherwise, when the paths *that contain a dot* have exactly
one distinct trailing extension and it is a known programming /
documentation / structured-data extension, the extension category
(`core`/`docs`/`config`) is returned; for `["src/a.py", "src/b.py"]` the
scope is `src`. -/
theorem C3_scope_amended (files : List String) (hne : files ≠ []) :
    (∀ d, dirSet files = [d] → get_scope files = applyScopeMap d) ∧
    ((dirSet files).length ≠ 1 →
      ∀ e s, extSet files = [e] → extCategory e = some s → get_scope files = s) ∧
    get_scope ["src/a.py", "src/b.py"] = "src" := by
  cases files with
  | nil => exact absurd rfl hne
  | cons f fs =>
    refine ⟨?_, ?_, by decide⟩
    · intro d hd
      simp only [get_scope, hd]
    · intro hlen e s he hcat
      cases hds : dirSet (f :: fs) with
      | nil => simp only [get_scope, hds, he, hcat]
      | cons d ds =>
        cases ds with
        | nil => exact absurd (by rw [hds]; rfl) hlen
        | cons d2 ds2 => simp only [get_scope, hds, he, hcat]

/-- Witness for the amended C3 at a concrete input: the slash-containing
paths of `["src/a.py", "src/b.py"]` share the single first component
`src`, so the scope is the synonym-mapped `src`. -/
theorem C3_scope_amended_witness :
    get_scope ["src/a.py", "src/b.py"] = applyScopeMap "src" :=
  (C3_scope_amended ["src/a.py", "src/b.py"] (by decide)).1 "src" (by decide)

/-! ## Claim C7 -/

/-- A description of the shape `pre ++ base_name ++ post` with slash-free
template parts contains the base name and no slash-containing string. -/
theorem single_file_desc_mid (pre post p : String)
    (hpre : '/' ∉ pre.data) (hpost : '/' ∉ post.data) :
    strContains (pre ++ fileNameOf p ++ post) (fileNameOf p) = true ∧
    ('/' ∈ p.data → strContains (pre ++ fileNameOf p ++ post) p = false) := by
  constructor
  · show containsSub (pre ++ fileNameOf p ++ post).data (fileNameOf p).data = true
    rw [strData_append, strData_append]
    exact containsSub_infix_mid _ _ _
  · intro hp
    show containsSub (pre ++ fileNameOf p ++ post).data p.data = false
    rw [strData_append, strData_append]
    refine containsSub_eq_false_of_not_mem hp ?_
    intro hmem
    rcases List.mem_append.mp hmem with hm | hm
    · rcases List.mem_append.mp hm with hm2 | hm2
      · exact hpre hm2
      · exact slash_not_mem_fileNameOf p hm2
    · exact hpost hm

/-- As `single_file_desc_mid`, for descriptions ending in the base name. -/
theorem single_file_desc_end (pre p : String) (hpre : '/' ∉ pre.data) :
    strContains (pre ++ fileNameOf p) (fileNameOf p) = true ∧
    ('/' ∈ p.data → strContains (pre ++ fileNameOf p) p = false) := by
  constructor
  · show containsSub (pre ++ fileNameOf p).data (fileNameOf p).data = true
    rw [strData_append]
    exact containsSub_eq_true_iff.mpr (List.suffix_append pre.data (fileNameOf p).data).isInfix
  · intro hp
    show containsSub (pre ++ fileNameOf p).data p.data = false
    rw [strData_append]
    refine containsSub_eq_false_of_not_mem hp ?_
    intro hmem
    rcases List.mem_append.mp hmem with hm | hm
    · exact hpre hm
    · exact slash_not_mem_fileNameOf p hm

/-- Counterexample to claim C7.  The claim requires the description of a
single-file diff to contain the base name and *not* contain the file's
full path; but when the path has no directory part the base name *is* the
full path, so the description necessarily contains it: for
`files_changed = ["a.py"]` the `fix` description is
`Resolve issues in a.py`, which contains the full path `a.py`. -/
theorem C7_description_counterexample :
    fileNameOf "a.py" = "a.py" ∧
    generate_description ⟨["a.py"], 1, 0, [], []⟩ "fix" = "Resolve issues in a.py" ∧
    strContains (generate_description ⟨["a.py"], 1, 0, [], []⟩ "fix") "a.py" = true := by
  decide

/-- Claim C7, corrected: for every diff analysis whose `files_changed`
has exactly one entry and every commit type, the description contains
that file's base name, and — whenever the path contains a directory
separator, so that the full path differs from the base name — it does not
contain the full path. -/
theorem C7_description_amended (a : DiffAnalysis) (ct : String) (p : String)
    (h : a.files_changed = [p]) :
    strContains (generate_description a ct) (fileNameOf p) = true ∧
    ('/' ∈ p.data → strContains (generate_description a ct) p = false) := by
  simp only [generate_description, h]
  split_ifs <;>
    first
      | exact single_file_desc_mid _ _ p (by decide) (by decide)
      | exact single_file_desc_end _ p (by decide)

/-- Witness for the amended C7 at a concrete input: the `fix` description
of the single file `src/app.py` contains the base name `app.py` but not
the full path. -/
theorem C7_description_amended_witness :
    strContains (generate_description ⟨["src/app.py"], 1, 0, [], []⟩ "fix")
        (fileNameOf "src/app.py") = true ∧
    strContains (generate_description ⟨["src/app.py"], 1, 0, [], []⟩ "fix")
        "src/app.py" = false := by
  have h := C7_description_amended ⟨["src/app.py"], 1, 0, [], []⟩ "fix" "src/app.py" rfl
  exact ⟨h.1, h.2 (by decide)⟩

/-! ## Claim C2 -/

/-- Claim C2: Tool B exits 1 iff the run produced at least one
ERROR-severity issue or the configuration could not be loaded, else 0; a
run with zero issues exits 0 after printing the no-issues message; a run
whose only issue is one ERROR exits 1. -/
theorem C2_exit_code (args : Args) (init : InitResult) (env : PathEnv)
    (tm : TmuxOutcome) (cfg : String) :
    ((mainRun args init env tm cfg).2 = 1 ↔
      init = InitResult.raiseNotFound ∨
      ∃ r, init = InitResult.ok r ∧
        (validate r env tm ⟨[], []⟩).issues.any (fun i => i.level == .ERROR) = true) ∧
    ((mainRun args init env tm cfg).2 = 0 ∨ (mainRun args init env tm cfg).2 = 1) ∧
    (∀ r, init = InitResult.ok r → (validate r env tm ⟨[], []⟩).issues = [] →
      args.json = false →
      mainRun args init env tm cfg =
        (MainOutput.reportOut ["No issues found in " ++ cfg], 0)) ∧
    (∀ r iss, init = InitResult.ok r →
      (validate r env tm ⟨[], []⟩).issues = [iss] → iss.level = .ERROR →
      (mainRun args init env tm cfg).2 = 1) := by
  cases init with
  | raiseNotFound =>
    refine ⟨by simp [mainRun], by simp [mainRun], ?_, ?_⟩
    · intro r hr
      exact absurd hr (by simp)
    · intro r iss hr
      exact absurd hr (by simp)
  | ok r =>
    refine ⟨?_, ?_, ?_, ?_⟩
    · by_cases hb : (validate r env tm ⟨[], []⟩).issues.any (fun i => i.level == .ERROR) = true
      · refine ⟨fun _ => Or.inr ⟨r, rfl, hb⟩, fun _ => ?_⟩
        simp [mainRun, hb]
      · simp only [mainRun, if_neg hb]
        constructor
        · intro h0
          exact absurd h0 (by simp)
        · intro hc
          rcases hc with hc | ⟨r2, hr2, hany⟩
          · exact absurd hc (by simp)
          · cases hr2
            exact absurd hany hb
    · by_cases hb : (validate r env tm ⟨[], []⟩).issues.any (fun i => i.level == .ERROR) = true <;>
        simp [mainRun, hb]
    · intro r2 hr2 hempty hjson
      cases hr2
      simp [mainRun, hjson, hempty, print_report]
    · intro r2 iss hr2 hone herr
      cases hr2
      simp [mainRun, hone, herr]

/-- Witness for C2 at concrete inputs: an empty config with a clean tmux
run yields exit 0 and the no-issues message, and a read failure (whose
single issue is one ERROR) yields exit 1. -/
theorem C2_exit_code_witness :
    mainRun ⟨some "t.conf", false, false⟩ (.ok (.ok [])) allExistsEnv
        (.completed 0 "") "t.conf" =
      (MainOutput.reportOut ["No issues found in t.conf"], 0) ∧
    (mainRun ⟨some "t.conf", false, false⟩ (.ok (.error "No such file")) allExistsEnv
        (.completed 0 "") "t.conf").2 = 1 := by
  constructor
  · exact (C2_exit_code ⟨some "t.conf", false, false⟩ (.ok (.ok [])) allExistsEnv
      (.completed 0 "") "t.conf").2.2.1 (.ok []) rfl (by decide) rfl
  · exact (C2_exit_code ⟨some "t.conf", false, false⟩ (.ok (.error "No such file")) allExistsEnv
      (.completed 0 "") "t.conf").2.2.2 (.error "No such file")
      (readErrorIssue "No such file") rfl (by decide) rfl

/-! ## Claim C4 -/

/-- Claim C4: when the config file cannot be read, `validate` reports the
failure as a single ERROR-severity issue and returns before running any
of the six checks — the resulting issue list is exactly that one issue,
for every path environment and tmux outcome, and nothing else of the
state changes. -/
theorem C4_read_failure_fatal (e : String) (env : PathEnv) (tm : TmuxOutcome)
    (st : VState) :
    validate (.error e) env tm st = ⟨[readErrorIssue e], st.keybindings⟩ ∧
    (readErrorIssue e).level = .ERROR := ⟨rfl, rfl⟩

/-! ## Claim C5 -/

/-- The per-line loop over tmux error output is the filter of kept lines
mapped to ERROR issues. -/
theorem tmux_error_issues_eq (es : List String) :
    tmux_error_issues es = (es.filter tmuxLineKept).map tmuxErrorIssue := by
  induction es with
  | nil => rfl
  | cons e rest ih =>
    by_cases h : tmuxLineKept e = true
    · simp [tmux_error_issues, h, ih]
    · simp [tmux_error_issues, h, ih]

/-- On a successful read, `validate` always returns the five static
checks' issues followed by the live cross-validation issues — for every
invocation outcome of the tmux binary. -/
theorem validate_ok_issues (lines : List String) (env : PathEnv) (tm : TmuxOutcome) :
    (validate (.ok lines) env tm ⟨[], []⟩).issues =
      static_issues env lines ++ tmux_issues tm := by
  simp [validate, check_keybinding_conflicts, static_issues, List.append_assoc]

/-- Counterexample to claim C5 as stated.  The claim says *each*
non-empty line of a non-zero-exit error output becomes an ERROR issue,
but the source skips lines starting with `server exited`: a non-zero exit
whose stderr is the single non-empty line `server exited unexpectedly`
appends no issue at all. -/
theorem C5_live_check_counterexample :
    (1 : Int) ≠ 0 ∧
    stderrLines "server exited unexpectedly" = ["server exited unexpectedly"] ∧
    "server exited unexpectedly" ≠ "" ∧
    tmux_issues (.completed 1 "server exited unexpectedly") = [] := by decide

/-- Claim C5, corrected: the live cross-validation never aborts the run —
`validate` always returns the static issues followed by the live-check
issues, for every invocation outcome — and the live check only appends
issues: on a non-zero exit each non-empty stderr line *that does not
start with `server exited`* becomes an ERROR issue carrying the parsed
`line N:` number (0 when absent); a zero exit appends nothing; a timeout
becomes a single WARNING; a missing tmux binary a single INFO; any other
invocation failure a single WARNING. -/
theorem C5_live_check_amended (lines : List String) (env : PathEnv) (tm : TmuxOutcome) :
    ((validate (.ok lines) env tm ⟨[], []⟩).issues =
      static_issues env lines ++ tmux_issues tm) ∧
    (∀ (rc : Int) (err : String), rc ≠ 0 →
      tmux_issues (.completed rc err) =
        ((stderrLines err).filter tmuxLineKept).map tmuxErrorIssue) ∧
    (∀ e, (tmuxErrorIssue e).level = .ERROR ∧
      (tmuxErrorIssue e).line_number = (findLineNum e.data).getD 0) ∧
    (∀ err, tmux_issues (.completed 0 err) = []) ∧
    ((tmux_issues .timeout).length = 1 ∧
      ∀ i ∈ tmux_issues TmuxOutcome.timeout, i.level = .WARNING) ∧
    ((tmux_issues .binaryMissing).length = 1 ∧
      ∀ i ∈ tmux_issues TmuxOutcome.binaryMissing, i.level = .INFO) ∧
    (∀ msg, (tmux_issues (.otherFailure msg)).length = 1 ∧
      ∀ i ∈ tmux_issues (TmuxOutcome.otherFailure msg), i.level = .WARNING) := by
  refine ⟨validate_ok_issues lines env tm, ?_, ?_, ?_, ?_, ?_, ?_⟩
  · intro rc err hrc
    simp [tmux_issues, hrc, tmux_error_issues_eq]
  · intro e
    exact ⟨rfl, rfl⟩
  · intro err
    simp [tmux_issues]
  · refine ⟨rfl, ?_⟩
    intro i hi
    simp only [tmux_issues, List.mem_singleton] at hi
    simp [hi]
  · refine ⟨rfl, ?_⟩
    intro i hi
    simp only [tmux_issues, List.mem_singleton] at hi
    simp [hi]
  · intro msg
    refine ⟨rfl, ?_⟩
    intro i hi
    simp only [tmux_issues, List.mem_singleton] at hi
    simp [hi]

/-- Witness for the amended C5 at a concrete input: a non-zero tmux exit
with one parseable error line yields exactly one ERROR issue with the
embedded line number 7. -/
theorem C5_live_check_amended_witness :
    tmux_issues (.completed 1 "bad.conf: line 7: unknown command") =
      [⟨.ERROR, 7, "tmux validation error", "", some "bad.conf: line 7: unknown command"⟩] := by
  have h := (C5_live_check_amended [] allExistsEnv
      (.completed 1 "bad.conf: line 7: unknown command")).2.1 1
      "bad.conf: line 7: unknown command" (by decide)
  rw [h]
  decide

/-! ## Claim C6 -/

/-- Claim C6 concerns a code bug: `main` declares `--fix` but never
consults it, so a run with `--fix` is byte-identical to a run without it
for every configuration, environment and tmux outcome — no
"not supported" failure is ever raised. -/
theorem C6_fix_flag_silently_ignored (config : Option String) (json : Bool)
    (init : InitResult) (env : PathEnv) (tm : TmuxOutcome) (cfg : String) :
    mainRun ⟨config, json, true⟩ init env tm cfg =
      mainRun ⟨config, json, false⟩ init env tm cfg := by
  cases init <;> rfl

/-! ## Claim C8 -/

theorem colorWarnIssue_inj {i : Nat} {line : String} {c c' : String}
    (h : colorWarnIssue i line c = colorWarnIssue i line c') : c = c' := by
  have hm : "Invalid color value \x27" ++ c ++ "\x27" =
      "Invalid color value \x27" ++ c' ++ "\x27" :=
    congrArg ValidationIssue.message h
  have hd := congrArg String.data hm
  rw [strData_append, strData_append, strData_append, strData_append] at hd
  exact String.ext (List.append_cancel_left (List.append_cancel_right hd))

/-- Counterexample to claim C8.  The claim requires a WARNING whenever
the value is not a named color, not of the colour/color + *index* form,
and not a hex code; but the source only tests for the prefixes `colour` /
`color`, so the value `colourxyz` — which carries no index — is accepted
and no WARNING is emitted. -/
theorem C8_color_check_counterexample :
    colorFindAll (strTrim "set -g status-style fg=colourxyz").data =
      [("fg", "colourxyz")] ∧
    ("colourxyz" ∈ valid_colors) = False ∧
    spec_colourIndexForm "colourxyz" = false ∧
    isHex6 "colourxyz" = false ∧
    colorLineIssues 1 "set -g status-style fg=colourxyz" = [] := by decide

/-- Claim C8, corrected to the source's acceptance test: for every
non-blank, non-comment line and every `(attr, value)` occurrence of
`fg`/`bg`/`style` found on it, the WARNING for that occurrence is emitted
if and only if the value is not in the named-color set, is not *prefixed*
by `colour` or `color` (no index is required), and is not a 6-hex-digit
`#RRGGBB` code. -/
theorem C8_color_check_amended (i : Nat) (line : String) (attr color : String)
    (h1 : strTrim line ≠ "") (h2 : strStartsWith (strTrim line) "#" = false)
    (hmem : (attr, color) ∈ colorFindAll (strTrim line).data) :
    colorWarnIssue i line color ∈ colorLineIssues i line ↔
      ¬ (color ∈ valid_colors ∨ strStartsWith color "colour" = true ∨
         strStartsWith color "color" = true ∨ isHex6 color = true) := by
  have hskip : ¬ (strTrim line = "" ∨ strStartsWith (strTrim line) "#" = true) := by
    intro hc
    rcases hc with hc | hc
    · exact h1 hc
    · rw [h2] at hc
      exact Bool.false_ne_true hc
  have hvalid : ∀ c : String, isValidColorValue c = true ↔
      (c ∈ valid_colors ∨ strStartsWith c "colour" = true ∨
       strStartsWith c "color" = true ∨ isHex6 c = true) := by
    intro c
    simp [isValidColorValue]
  constructor
  · intro hin
    simp only [colorLineIssues, if_neg hskip, List.mem_filterMap] at hin
    obtain ⟨ac, hac, hsome⟩ := hin
    by_cases hv : isValidColorValue ac.2 = true
    · rw [if_pos hv] at hsome
      exact absurd hsome (by simp)
    · rw [if_neg hv] at hsome
      have hc : ac.2 = color := colorWarnIssue_inj (Option.some.inj hsome)
      rw [hc] at hv
      rw [hvalid color] at hv
      exact hv
  · intro hnv
    have hv : isValidColorValue color = false := by
      rw [← Bool.not_eq_true, hvalid color]
      exact hnv
    simp only [colorLineIssues, if_neg hskip, List.mem_filterMap]
    refine ⟨(attr, color), hmem, ?_⟩
    rw [if_neg (by rw [hv]; exact Bool.false_ne_true)]

/-- Witness for the amended C8 at a concrete input: `notacolor` passes
none of the three acceptance tests, so its WARNING is emitted. -/
theorem C8_color_check_amended_witness :
    colorWarnIssue 1 "set fg=notacolor" "notacolor" ∈
      colorLineIssues 1 "set fg=notacolor" :=
  (C8_color_check_amended 1 "set fg=notacolor" "fg" "notacolor" (by decide) (by decide)
    (by decide)).mpr (by decide)

/-! ## Claim C9 -/

/-- Counterexample to claim C9.  The key-binding-conflict check keeps
`self.keybindings` across invocations on the same validator instance (it
is initialised in `__init__` and never reset): running it twice over the
identical single line `bind a cmd` appends no issue the first time but a
duplicate-binding WARNING the second time, so the appended issue lists
differ. -/
theorem C9_idempotence_counterexample :
    (check_keybinding_conflicts ["bind a cmd"] ⟨[], []⟩).issues = [] ∧
    (check_keybinding_conflicts ["bind a cmd"]
        (check_keybinding_conflicts ["bind a cmd"] ⟨[], []⟩)).issues =
      [⟨.WARNING, 1, "Duplicate key binding \x27a\x27", "bind a cmd",
        some "Previously defined at line 1"⟩] := by decide

/-- Claim C9, corrected: the syntax, deprecated-option, color-value and
path checks maintain no cross-invocation state — run twice in succession
over identical lines on the same instance, each appends the identical
issue list both times and leaves `self.keybindings` untouched; the
key-binding-conflict check, however, retains `self.keybindings` across
invocations, so its second run over the same lines appends
duplicate-binding warnings absent from the first run's appended list. -/
theorem C9_idempotence_amended (lines : List String) (env : PathEnv) (st : VState) :
    ((check_color_values_st lines st).issues = st.issues ++ check_color_values lines ∧
     (check_color_values_st lines (check_color_values_st lines st)).issues =
       (check_color_values_st lines st).issues ++ check_color_values lines ∧
     (check_color_values_st lines st).keybindings = st.keybindings) ∧
    ((check_syntax_st lines st).issues = st.issues ++ check_syntax_issues lines ∧
     (check_syntax_st lines (check_syntax_st lines st)).issues =
       (check_syntax_st lines st).issues ++ check_syntax_issues lines ∧
     (check_syntax_st lines st).keybindings = st.keybindings) ∧
    ((check_deprecated_options_st lines st).issues =
       st.issues ++ check_deprecated_options lines ∧
     (check_deprecated_options_st lines (check_deprecated_options_st lines st)).issues =
       (check_deprecated_options_st lines st).issues ++ check_deprecated_options lines ∧
     (check_deprecated_options_st lines st).keybindings = st.keybindings) ∧
    ((check_paths_st env lines st).issues = st.issues ++ check_paths env lines ∧
     (check_paths_st env lines (check_paths_st env lines st)).issues =
       (check_paths_st env lines st).issues ++ check_paths env lines ∧
     (check_paths_st env lines st).keybindings = st.keybindings) :=
  ⟨⟨rfl, rfl, rfl⟩, ⟨rfl, rfl, rfl⟩, ⟨rfl, rfl, rfl⟩, ⟨rfl, rfl, rfl⟩⟩

/-! ## Claim C10 -/

theorem kbLookup_append_self (kb : List (String × Nat)) (f : String) (i : Nat)
    (h : kbLookup kb f = none) : kbLookup (kb ++ [(f, i)]) f = some i := by
  simp only [kbLookup, Option.map_eq_none'] at h
  simp [kbLookup, List.find?_append, h]

/-- Claim C10: the key-binding regex only recognises flag clusters drawn
from `-r`/`-n`/`-x` between the bind word and the key.  On any two
non-comment lines whose tokens are a bind word followed by the same flag
token `f` that is not such a cluster (e.g. `-T`), a table/key and more,
the recorded key is the flag token itself, and the second line is
reported as a duplicate binding of `f` citing the first — regardless of
the actual keys and tables bound. -/
theorem C10_flag_token_recorded (w1 w2 f t1 k1 t2 k2 : String) (r1 r2 : List String)
    (l1 l2 : String) (st : VState)
    (hw1 : w1 = "bind" ∨ w1 = "bind-key") (hw2 : w2 = "bind" ∨ w2 = "bind-key")
    (hf : isFlagCluster f = false)
    (ht1 : wordTokens (strTrim l1) = w1 :: f :: t1 :: k1 :: r1)
    (ht2 : wordTokens (strTrim l2) = w2 :: f :: t2 :: k2 :: r2)
    (hc1 : ¬ (strTrim l1 = "" ∨ strStartsWith (strTrim l1) "#" = true))
    (hc2 : ¬ (strTrim l2 = "" ∨ strStartsWith (strTrim l2) "#" = true))
    (hkb : kbLookup st.keybindings f = none) :
    bindKeyOf (strTrim l1) = some f ∧
    bindKeyOf (strTrim l2) = some f ∧
    (check_keybinding_conflicts [l1, l2] st).issues =
      st.issues ++ [⟨.WARNING, 2, "Duplicate key binding \x27" ++ f ++ "\x27", rstrip l2,
        some ("Previously defined at line " ++ toString (1 : Nat))⟩] := by
  have hb1 : bindKeyOf (strTrim l1) = some f := by
    rcases hw1 with h | h <;> rw [bindKeyOf, ht1] <;> simp [h, hf]
  have hb2 : bindKeyOf (strTrim l2) = some f := by
    rcases hw2 with h | h <;> rw [bindKeyOf, ht2] <;> simp [h, hf]
  refine ⟨hb1, hb2, ?_⟩
  have henum : enumerate1 [l1, l2] = [(1, l1), (2, l2)] := rfl
  simp only [check_keybinding_conflicts, henum, kbProcess, if_neg hc1, if_neg hc2,
    hb1, hb2, hkb, kbLookup_append_self st.keybindings f 1 hkb]

/-- Witness for C10 at concrete lines: two `bind -T` lines binding
different keys in different tables both record `-T` as the key, and the
second is reported as a duplicate binding of `-T`. -/
theorem C10_flag_token_recorded_witness :
    (check_keybinding_conflicts ["bind -T copy-mode v send", "bind -T root q kill"]
        ⟨[], []⟩).issues =
      [⟨.WARNING, 2, "Duplicate key binding \x27-T\x27", "bind -T root q kill",
        some "Previously defined at line 1"⟩] := by
  have h := C10_flag_token_recorded "bind" "bind" "-T" "copy-mode" "v" "root" "q"
    ["send"] ["kill"] "bind -T copy-mode v send" "bind -T root q kill" ⟨[], []⟩
    (Or.inl rfl) (Or.inl rfl) (by decide) (by decide) (by decide) (by decide) (by decide)
    (by decide)
  exact h.2.2.trans (by decide)
